import Mathlib

/-!
Verification of the two-segment SCARA inverse-kinematics solver
(`roboticarm.go`): the functions `lawOfCosines`, `distance`, `angles`
and the constants `len1`, `len2` are embedded over the reals, with
`Option ℝ` as the value carrier (`none` models an IEEE NaN result,
which is how the Go code signals unreachable or degenerate targets).
-/

namespace RoboticArm

noncomputable section

open Real

/-- Model of Go's `math.Acos` on finite arguments: NaN (here `none`)
whenever the argument lies outside `[-1, 1]`, otherwise the principal
arc cosine in `[0, π]`. -/
def goAcos (t : ℝ) : Option ℝ :=
  if -1 ≤ t ∧ t ≤ 1 then some (Real.arccos t) else none

/-- `lawOfCosines(a, b, c) = Acos((a*a + b*b - c*c) / (2*a*b))` from the
source.  When the denominator `2*a*b` is zero the Go division produces
`±Inf` or `NaN`, and `math.Acos` of any of those is NaN, hence `none`. -/
def lawOfCosines (a b c : ℝ) : Option ℝ :=
  if 2 * a * b = 0 then none
  else goAcos ((a * a + b * b - c * c) / (2 * a * b))

/-- `distance(x, y) = Sqrt(x*x + y*y)` from the source. -/
def distance (x y : ℝ) : ℝ := Real.sqrt (x * x + y * y)

/-- Model of Go's `math.Atan2(y, x)` on finite arguments: the angle of
the point `(x, y)` in `(-π, π]`, with `atan2 0 0 = 0`. -/
def atan2 (y x : ℝ) : ℝ :=
  if 0 < x then Real.arctan (y / x)
  else if x < 0 then
    (if 0 ≤ y then Real.arctan (y / x) + π else Real.arctan (y / x) - π)
  else
    (if 0 < y then π / 2 else if y < 0 then -(π / 2) else 0)

/-- The solver with the segment lengths made explicit parameters (the
spec's `solve(x, y, len1, len2)`); the body is exactly that of the
source's `angles`: `dist := distance x y`, `D1 := Atan2(y, x)`,
`D2 := lawOfCosines dist l1 l2`, `A1 = D1 + D2`,
`A2 = lawOfCosines l1 l2 dist`. -/
def solve (x y l1 l2 : ℝ) : Option ℝ × Option ℝ :=
  ((lawOfCosines (distance x y) l1 l2).map (fun D2 => atan2 y x + D2),
   lawOfCosines l1 l2 (distance x y))

/-- The source's constant `len1 = 10.0`. -/
def len1 : ℝ := 10

/-- The source's constant `len2 = 10.0`. -/
def len2 : ℝ := 10

/-- The source's `angles(x, y)`: the solver at the fixed configuration
`len1 = len2 = 10`. -/
def angles (x y : ℝ) : Option ℝ × Option ℝ := solve x y len1 len2

/-- Reference formula for `A1` transcribed from the spec's own words
(steps 1-4 of the algorithm): `dist = sqrt(x² + y²)`,
`D1 = atan2(y, x)`, `D2 = acos((dist² + len1² − len2²) / (2·dist·len1))`,
`A1 = D1 + D2`, with `none` modelling the NaN of a zero denominator or
an arccosine argument outside `[-1, 1]`. -/
def refA1 (x y l1 l2 : ℝ) : Option ℝ :=
  if 2 * Real.sqrt (x ^ 2 + y ^ 2) * l1 = 0 then none
  else
    (goAcos ((Real.sqrt (x ^ 2 + y ^ 2) ^ 2 + l1 ^ 2 - l2 ^ 2) /
        (2 * Real.sqrt (x ^ 2 + y ^ 2) * l1))).map
      (fun D2 => atan2 y x + D2)

/-- Reference formula for `A2` transcribed from the spec's own words
(step 5 of the algorithm): `A2 = acos((len1² + len2² − dist²) /
(2·len1·len2))`, with the same NaN-as-`none` convention. -/
def refA2 (x y l1 l2 : ℝ) : Option ℝ :=
  if 2 * l1 * l2 = 0 then none
  else
    goAcos ((l1 ^ 2 + l2 ^ 2 - Real.sqrt (x ^ 2 + y ^ 2) ^ 2) /
      (2 * l1 * l2))

/-- C1: for every target (x, y), the solver computes dist = sqrt(x² + y²),
D1 = atan2(y, x), D2 = acos((dist² + len1² − len2²) / (2·dist·len1)),
and returns A1 = D1 + D2 and A2 = acos((len1² + len2² − dist²) /
(2·len1·len2)): the returned pair equals these reference formulas
exactly. -/
theorem C1_solver_equals_reference_formulas (x y l1 l2 : ℝ) :
    solve x y l1 l2 = (refA1 x y l1 l2, refA2 x y l1 l2) := by
  have hx : x ^ 2 + y ^ 2 = x * x + y * y := by ring
  have hs : Real.sqrt (x * x + y * y) ^ 2 =
      Real.sqrt (x * x + y * y) * Real.sqrt (x * x + y * y) := by ring
  unfold solve refA1 refA2 lawOfCosines distance
  rw [hx, hs]
  simp only [Prod.mk.injEq]
  constructor
  · by_cases h : 2 * Real.sqrt (x * x + y * y) * l1 = 0
    · simp [h]
    · simp only [if_neg h]
      congr 2
      ring
  · by_cases h2 : 2 * l1 * l2 = 0
    · simp [h2]
    · simp only [if_neg h2]
      congr 1
      ring

/-- C5: with len1 = len2, solving for the target (0, 0) yields
not-a-number (modelled as `none`) for A1, because the D2 computation
divides by the zero denominator 2·dist·len1. -/
theorem C5_origin_yields_nan_A1 (l : ℝ) : (solve 0 0 l l).1 = none := by
  have h : distance 0 0 = 0 := by simp [distance]
  simp [solve, lawOfCosines, h]

/-- C8: whenever the returned elbow angle A2 is finite, it lies in the
arccosine range [0, π]. -/
theorem C8_elbow_angle_in_principal_range (x y l1 l2 a : ℝ)
    (h : (solve x y l1 l2).2 = some a) : 0 ≤ a ∧ a ≤ π := by
  simp only [solve] at h
  unfold lawOfCosines goAcos at h
  split at h
  · simp at h
  · split at h
    · simp only [Option.some.injEq] at h
      exact ⟨h ▸ Real.arccos_nonneg _, h ▸ Real.arccos_le_pi _⟩
    · simp at h

/-- Witness for C8 at the concrete input (0, 0) with both lengths 10,
where the solver returns A2 = arccos 1 = 0. -/
theorem C8_witness : (0:ℝ) ≤ 0 ∧ (0:ℝ) ≤ π :=
  C8_elbow_angle_in_principal_range 0 0 10 10 0
    (by norm_num [solve, lawOfCosines, goAcos, distance, Real.arccos_one])

/-- The arc-cosine model returns a value exactly when its argument lies
in [-1, 1]. -/
lemma goAcos_isSome_iff (t : ℝ) :
    (goAcos t).isSome = true ↔ (-1 ≤ t ∧ t ≤ 1) := by
  unfold goAcos
  split <;> simp_all

/-- Domain of the first law-of-cosines argument: for positive d, l1, l2
the ratio (d² + l1² − l2²)/(2·d·l1) lies in [-1, 1] exactly on the
triangle-inequality range. -/
lemma arg1_mem_iff (d l1 l2 : ℝ) (hd : 0 < d) (hl1 : 0 < l1)
    (hl2 : 0 < l2) :
    (-1 ≤ (d * d + l1 * l1 - l2 * l2) / (2 * d * l1) ∧
      (d * d + l1 * l1 - l2 * l2) / (2 * d * l1) ≤ 1) ↔
    (|l1 - l2| ≤ d ∧ d ≤ l1 + l2) := by
  have hden : (0:ℝ) < 2 * d * l1 := by positivity
  rw [div_le_one hden, le_div_iff₀ hden]
  constructor
  · rintro ⟨h1, h2⟩
    refine ⟨abs_le.mpr ⟨?_, ?_⟩, ?_⟩
    · nlinarith [h1, hl1.le, hl2.le, hd.le]
    · nlinarith [h2, hl1.le, hl2.le, hd.le]
    · nlinarith [h2, hl1.le, hl2.le, hd.le]
  · rintro ⟨h1, h2⟩
    obtain ⟨ha1, ha2⟩ := abs_le.mp h1
    constructor
    · nlinarith [ha1, h2, hl1.le, hl2.le, hd.le]
    · nlinarith [ha2, h2, hl1.le, hl2.le, hd.le]

/-- Domain of the second law-of-cosines argument: for positive d, l1, l2
the ratio (l1² + l2² − d²)/(2·l1·l2) lies in [-1, 1] exactly on the
triangle-inequality range. -/
lemma arg2_mem_iff (d l1 l2 : ℝ) (hd : 0 < d) (hl1 : 0 < l1)
    (hl2 : 0 < l2) :
    (-1 ≤ (l1 * l1 + l2 * l2 - d * d) / (2 * l1 * l2) ∧
      (l1 * l1 + l2 * l2 - d * d) / (2 * l1 * l2) ≤ 1) ↔
    (|l1 - l2| ≤ d ∧ d ≤ l1 + l2) := by
  have hden : (0:ℝ) < 2 * l1 * l2 := by positivity
  rw [div_le_one hden, le_div_iff₀ hden]
  constructor
  · rintro ⟨h1, h2⟩
    refine ⟨abs_le.mpr ⟨?_, ?_⟩, ?_⟩
    · nlinarith [h2, hl1.le, hl2.le, hd.le]
    · nlinarith [h2, hl1.le, hl2.le, hd.le]
    · nlinarith [h1, hl1.le, hl2.le, hd.le]
  · rintro ⟨h1, h2⟩
    obtain ⟨ha1, ha2⟩ := abs_le.mp h1
    constructor
    · nlinarith [h2, hl1.le, hl2.le, hd.le]
    · nlinarith [ha1, ha2, hl1.le, hl2.le, hd.le]

/-- The base-angle component of the solver is finite exactly on the
triangle-inequality range, for a target away from the origin. -/
lemma solve_fst_isSome_iff (x y l1 l2 : ℝ) (hl1 : 0 < l1) (hl2 : 0 < l2)
    (hd : distance x y ≠ 0) :
    ((solve x y l1 l2).1.isSome = true ↔
      (|l1 - l2| ≤ distance x y ∧ distance x y ≤ l1 + l2)) := by
  have hd0 : 0 ≤ distance x y := Real.sqrt_nonneg _
  have hdpos : 0 < distance x y := lt_of_le_of_ne hd0 (Ne.symm hd)
  have hne : ¬(2 * distance x y * l1 = 0) := by positivity
  simp only [solve, lawOfCosines, if_neg hne, Option.isSome_map']
  rw [goAcos_isSome_iff]
  exact arg1_mem_iff (distance x y) l1 l2 hdpos hl1 hl2

/-- The elbow-angle component of the solver is finite exactly on the
triangle-inequality range, for a target away from the origin. -/
lemma solve_snd_isSome_iff (x y l1 l2 : ℝ) (hl1 : 0 < l1) (hl2 : 0 < l2)
    (hd : distance x y ≠ 0) :
    ((solve x y l1 l2).2.isSome = true ↔
      (|l1 - l2| ≤ distance x y ∧ distance x y ≤ l1 + l2)) := by
  have hd0 : 0 ≤ distance x y := Real.sqrt_nonneg _
  have hdpos : 0 < distance x y := lt_of_le_of_ne hd0 (Ne.symm hd)
  have hne : ¬(2 * l1 * l2 = 0) := by positivity
  simp only [solve, lawOfCosines, if_neg hne]
  rw [goAcos_isSome_iff]
  exact arg2_mem_iff (distance x y) l1 l2 hdpos hl1 hl2

/-- At the origin the base-angle component is `none` (the divide-by-zero
NaN). -/
lemma solve_fst_none_at_origin (x y l1 l2 : ℝ) (hd : distance x y = 0) :
    (solve x y l1 l2).1 = none := by
  simp [solve, lawOfCosines, hd]

/-- C2: for positive segment lengths, the solver returns finite values
for both angles exactly when |len1 − len2| ≤ d ≤ len1 + len2, except at
the origin degeneracy d = 0, where A1 is not-a-number regardless. -/
theorem C2_reachability_boundary (x y l1 l2 : ℝ) (hl1 : 0 < l1)
    (hl2 : 0 < l2) :
    (distance x y ≠ 0 →
      (((solve x y l1 l2).1.isSome = true ∧
        (solve x y l1 l2).2.isSome = true) ↔
        (|l1 - l2| ≤ distance x y ∧ distance x y ≤ l1 + l2))) ∧
    (distance x y = 0 → (solve x y l1 l2).1 = none) := by
  refine ⟨fun hd => ?_, fun hd => solve_fst_none_at_origin x y l1 l2 hd⟩
  rw [solve_fst_isSome_iff x y l1 l2 hl1 hl2 hd,
    solve_snd_isSome_iff x y l1 l2 hl1 hl2 hd, and_self]

/-- Witness for C2 at the concrete target (10, 0), lengths 10 and 10. -/
theorem C2_witness :
    (distance 10 0 ≠ 0 →
      (((solve 10 0 10 10).1.isSome = true ∧
        (solve 10 0 10 10).2.isSome = true) ↔
        (|(10:ℝ) - 10| ≤ distance 10 0 ∧ distance 10 0 ≤ 10 + 10))) ∧
    (distance 10 0 = 0 → (solve 10 0 10 10).1 = none) :=
  C2_reachability_boundary 10 0 10 10 (by norm_num) (by norm_num)

/-- C6: the solver is a total function of its real inputs, and a
not-a-number component (modelled as `none`) occurs exactly when the
target is degenerate (d = 0) or unreachable (d outside the triangle
range); this is the only failure manifestation. -/
theorem C6_nan_exactly_on_unreachable_or_degenerate (x y l1 l2 : ℝ)
    (hl1 : 0 < l1) (hl2 : 0 < l2) :
    ((solve x y l1 l2).1 = none ∨ (solve x y l1 l2).2 = none) ↔
      (distance x y = 0 ∨ distance x y < |l1 - l2| ∨
        l1 + l2 < distance x y) := by
  by_cases hd : distance x y = 0
  · exact iff_of_true (Or.inl (solve_fst_none_at_origin x y l1 l2 hd))
      (Or.inl hd)
  · have h1 := solve_fst_isSome_iff x y l1 l2 hl1 hl2 hd
    have h2 := solve_snd_isSome_iff x y l1 l2 hl1 hl2 hd
    rw [← Option.not_isSome_iff_eq_none, ← Option.not_isSome_iff_eq_none,
      h1, h2, or_self, not_and_or, not_le, not_le]
    constructor
    · exact fun h => Or.inr h
    · rintro (h | h)
      · exact absurd h hd
      · exact h

/-- Witness for C6 at the unreachable concrete target (20, 20), lengths
10 and 10. -/
theorem C6_witness :
    ((solve 20 20 10 10).1 = none ∨ (solve 20 20 10 10).2 = none) ↔
      (distance 20 20 = 0 ∨ distance 20 20 < |(10:ℝ) - 10| ∨
        10 + 10 < distance 20 20) :=
  C6_nan_exactly_on_unreachable_or_degenerate 20 20 10 10 (by norm_num)
    (by norm_num)

/-- Evaluation rule for the law-of-cosines model when the argument is in
range. -/
lemma lawOfCosines_eq (a b c r : ℝ) (hne : 2 * a * b ≠ 0)
    (h1 : -1 ≤ (a * a + b * b - c * c) / (2 * a * b))
    (h2 : (a * a + b * b - c * c) / (2 * a * b) ≤ 1)
    (hr : Real.arccos ((a * a + b * b - c * c) / (2 * a * b)) = r) :
    lawOfCosines a b c = some r := by
  unfold lawOfCosines goAcos
  rw [if_neg hne, if_pos ⟨h1, h2⟩, hr]

/-- At maximum reach the solver returns the base angle 0 and the elbow
angle π (arm fully extended, interior elbow angle π). -/
lemma solve_max_reach (l1 l2 : ℝ) (hl1 : 0 < l1) (hl2 : 0 < l2) :
    solve (l1 + l2) 0 l1 l2 = (some 0, some π) := by
  have hd : distance (l1 + l2) 0 = l1 + l2 := by
    unfold distance
    rw [mul_zero, add_zero, show (l1 + l2) * (l1 + l2) = (l1 + l2) ^ 2
      by ring, Real.sqrt_sq (by positivity)]
  have hA1 : atan2 0 (l1 + l2) = 0 := by
    unfold atan2
    rw [if_pos (by positivity : (0:ℝ) < l1 + l2), zero_div,
      Real.arctan_zero]
  have harg1 : ((l1 + l2) * (l1 + l2) + l1 * l1 - l2 * l2) /
      (2 * (l1 + l2) * l1) = 1 := by
    rw [div_eq_one_iff_eq (by positivity)]
    ring
  have harg2 : (l1 * l1 + l2 * l2 - (l1 + l2) * (l1 + l2)) /
      (2 * l1 * l2) = -1 := by
    rw [div_eq_iff (by positivity)]
    ring
  unfold solve
  rw [hd, lawOfCosines_eq (l1 + l2) l1 l2 0 (by positivity)
      (by rw [harg1]; norm_num) (by rw [harg1])
      (by rw [harg1, Real.arccos_one]),
    lawOfCosines_eq l1 l2 (l1 + l2) π (by positivity)
      (by rw [harg2]) (by rw [harg2]; norm_num)
      (by rw [harg2, Real.arccos_neg_one])]
  simp [hA1]

/-- Counterexample to C4: at the maximum-reach target (20, 0) with
len1 = len2 = 10, the source's `angles` returns A1 = 0 but A2 = π, and
π exceeds 3, so A2 is not 0 within any small tolerance. -/
theorem C4_counterexample :
    angles 20 0 = (some 0, some π) ∧ (3:ℝ) < π := by
  refine ⟨?_, Real.pi_gt_three⟩
  have h := solve_max_reach 10 10 (by norm_num) (by norm_num)
  unfold angles
  rw [show (20:ℝ) = 10 + 10 by norm_num]
  exact h

/-- C4 as amended: at maximum reach, i.e. for the target
(len1 + len2, 0) with positive segment lengths, the solver returns
A1 = 0 and A2 = π (the elbow angle is the interior triangle angle, which
is π for a fully extended arm), exactly. -/
theorem C4_amended_max_reach (l1 l2 : ℝ) (hl1 : 0 < l1) (hl2 : 0 < l2) :
    solve (l1 + l2) 0 l1 l2 = (some 0, some π) :=
  solve_max_reach l1 l2 hl1 hl2

/-- Witness for the amended C4 at the concrete lengths 10 and 10. -/
theorem C4_witness : solve (10 + 10) 0 10 10 = (some 0, some π) :=
  C4_amended_max_reach 10 10 (by norm_num) (by norm_num)

/-- Square root of 200 expressed through the square root of 2. -/
lemma sqrt_two_hundred : Real.sqrt 200 = 10 * Real.sqrt 2 := by
  rw [show (200:ℝ) = 10 ^ 2 * 2 by norm_num,
    Real.sqrt_mul (by positivity) 2, Real.sqrt_sq (by norm_num)]

/-- The square root of 2 is at most 2. -/
lemma sqrt_two_le_two : Real.sqrt 2 ≤ 2 := by
  nlinarith [Real.sq_sqrt (show (0:ℝ) ≤ 2 by norm_num),
    Real.sqrt_nonneg 2]

/-- C9: with len1 = len2 = 10, solving for the target (√200, 0) yields
exactly A1 = π/4 and A2 = π/2. -/
theorem C9_sqrt200_target_exact :
    angles (Real.sqrt 200) 0 = (some (π / 4), some (π / 2)) := by
  have h200 : Real.sqrt 200 * Real.sqrt 200 = 200 :=
    Real.mul_self_sqrt (by norm_num)
  have hpos : 0 < Real.sqrt 200 := Real.sqrt_pos.mpr (by norm_num)
  have s2 : Real.sqrt 2 * Real.sqrt 2 = 2 :=
    Real.mul_self_sqrt (by norm_num)
  have s2nn : 0 ≤ Real.sqrt 2 := Real.sqrt_nonneg 2
  have hd : distance (Real.sqrt 200) 0 = Real.sqrt 200 := by
    unfold distance
    rw [mul_zero, add_zero, h200]
  have hA1 : atan2 0 (Real.sqrt 200) = 0 := by
    unfold atan2
    rw [if_pos hpos, zero_div, Real.arctan_zero]
  have harg1 : (Real.sqrt 200 * Real.sqrt 200 + 10 * 10 - 10 * 10) /
      (2 * Real.sqrt 200 * 10) = Real.sqrt 2 / 2 := by
    rw [sqrt_two_hundred, div_eq_iff (by positivity)]
    ring
  have harg2 : (10 * 10 + 10 * 10 - Real.sqrt 200 * Real.sqrt 200) /
      (2 * 10 * 10) = 0 := by
    rw [h200]
    norm_num
  have hac : Real.arccos (Real.sqrt 2 / 2) = π / 4 := by
    rw [← Real.cos_pi_div_four,
      Real.arccos_cos (by linarith [Real.pi_pos]) (by linarith [Real.pi_pos])]
  show solve (Real.sqrt 200) 0 10 10 = (some (π / 4), some (π / 2))
  unfold solve
  rw [hd, lawOfCosines_eq (Real.sqrt 200) 10 10 (π / 4) (by positivity)
      (by rw [harg1]; linarith) (by rw [harg1]; linarith [sqrt_two_le_two])
      (by rw [harg1, hac]),
    lawOfCosines_eq 10 10 (Real.sqrt 200) (π / 2) (by positivity)
      (by rw [harg2]; norm_num) (by rw [harg2]; norm_num)
      (by rw [harg2, Real.arccos_zero])]
  simp [hA1]

/-- Evaluation of the atan2 model on the open right half plane. -/
lemma atan2_of_pos_x (y x : ℝ) (hx : 0 < x) :
    atan2 y x = Real.arctan (y / x) := by
  unfold atan2
  rw [if_pos hx]

/-- Evaluation of the atan2 model on the closed upper left quadrant. -/
lemma atan2_of_neg_x_nonneg (y x : ℝ) (hx : x < 0) (hy : 0 ≤ y) :
    atan2 y x = Real.arctan (y / x) + π := by
  unfold atan2
  rw [if_neg (by linarith), if_pos hx, if_pos hy]

/-- Evaluation of the atan2 model on the open lower left quadrant. -/
lemma atan2_of_neg_x_neg (y x : ℝ) (hx : x < 0) (hy : y < 0) :
    atan2 y x = Real.arctan (y / x) - π := by
  unfold atan2
  rw [if_neg (by linarith), if_pos hx, if_neg (by linarith)]

/-- Evaluation of the atan2 model on the positive y axis. -/
lemma atan2_of_zero_x_pos (y : ℝ) (hy : 0 < y) : atan2 y 0 = π / 2 := by
  unfold atan2
  rw [if_neg (lt_irrefl 0), if_neg (lt_irrefl 0), if_pos hy]

/-- Evaluation of the atan2 model on the negative y axis. -/
lemma atan2_of_zero_x_neg (y : ℝ) (hy : y < 0) :
    atan2 y 0 = -(π / 2) := by
  unfold atan2
  rw [if_neg (lt_irrefl 0), if_neg (lt_irrefl 0),
    if_neg (by linarith), if_pos hy]

/-- Reflecting a nonzero point through the origin shifts its atan2 angle
by exactly π, upward or downward. -/
lemma atan2_neg_neg (x y : ℝ) (h : ¬(x = 0 ∧ y = 0)) :
    atan2 (-y) (-x) = atan2 y x + π ∨
    atan2 (-y) (-x) = atan2 y x - π := by
  rcases lt_trichotomy x 0 with hx | hx | hx
  · have hnx : 0 < -x := by linarith
    have hdiv : -y / -x = y / x := neg_div_neg_eq y x
    by_cases hy : 0 ≤ y
    · right
      rw [atan2_of_pos_x (-y) (-x) hnx, hdiv,
        atan2_of_neg_x_nonneg y x hx hy]
      ring
    · left
      rw [atan2_of_pos_x (-y) (-x) hnx, hdiv,
        atan2_of_neg_x_neg y x hx (by linarith)]
      ring
  · subst hx
    have hy : y ≠ 0 := fun h0 => h ⟨rfl, h0⟩
    rcases lt_trichotomy y 0 with hy1 | hy1 | hy1
    · left
      rw [neg_zero, atan2_of_zero_x_pos (-y) (by linarith),
        atan2_of_zero_x_neg y hy1]
      ring
    · exact absurd hy1 hy
    · right
      rw [neg_zero, atan2_of_zero_x_neg (-y) (by linarith),
        atan2_of_zero_x_pos y hy1]
      ring
  · have hnx : -x < 0 := by linarith
    have hdiv : -y / -x = y / x := neg_div_neg_eq y x
    by_cases hy : 0 ≤ -y
    · left
      rw [atan2_of_neg_x_nonneg (-y) (-x) hnx hy, hdiv,
        atan2_of_pos_x y x hx]
    · right
      rw [atan2_of_neg_x_neg (-y) (-x) hnx (by linarith), hdiv,
        atan2_of_pos_x y x hx]

/-- The distance vanishes exactly at the origin. -/
lemma distance_eq_zero_iff (x y : ℝ) :
    distance x y = 0 ↔ (x = 0 ∧ y = 0) := by
  unfold distance
  rw [Real.sqrt_eq_zero (add_nonneg (mul_self_nonneg x) (mul_self_nonneg y))]
  constructor
  · intro h0
    have hx : x * x = 0 :=
      le_antisymm (by nlinarith [mul_self_nonneg y]) (mul_self_nonneg x)
    have hy : y * y = 0 :=
      le_antisymm (by nlinarith [mul_self_nonneg x]) (mul_self_nonneg y)
    exact ⟨mul_self_eq_zero.mp hx, mul_self_eq_zero.mp hy⟩
  · rintro ⟨hx, hy⟩
    rw [hx, hy]
    norm_num

/-- Cosine of the arctangent of y/x, scaled by the hypotenuse. -/
lemma cos_arctan_mul_sqrt (x y : ℝ) (hx : x ≠ 0) :
    Real.cos (Real.arctan (y / x)) * Real.sqrt (x * x + y * y) = |x| := by
  have h1 : 1 + (y / x) ^ 2 = (x * x + y * y) / (x * x) := by
    field_simp
    ring
  have hsq : Real.sqrt (1 + (y / x) ^ 2) =
      Real.sqrt (x * x + y * y) / |x| := by
    rw [h1, Real.sqrt_div (add_nonneg (mul_self_nonneg x) (mul_self_nonneg y)) (x * x),
      Real.sqrt_mul_self_eq_abs]
  have hs : Real.sqrt (x * x + y * y) ≠ 0 := by
    rw [Ne, Real.sqrt_eq_zero (add_nonneg (mul_self_nonneg x) (mul_self_nonneg y))]
    intro h0
    have : x * x = 0 :=
      le_antisymm (by nlinarith [mul_self_nonneg y]) (mul_self_nonneg x)
    exact hx (mul_self_eq_zero.mp this)
  rw [Real.cos_arctan, hsq, one_div_div]
  exact div_mul_cancel₀ _ hs

/-- Sine of the arctangent of y/x, scaled by the hypotenuse. -/
lemma sin_arctan_mul_sqrt (x y : ℝ) (hx : x ≠ 0) :
    Real.sin (Real.arctan (y / x)) * Real.sqrt (x * x + y * y) =
      y / x * |x| := by
  have h1 : 1 + (y / x) ^ 2 = (x * x + y * y) / (x * x) := by
    field_simp
    ring
  have hsq : Real.sqrt (1 + (y / x) ^ 2) =
      Real.sqrt (x * x + y * y) / |x| := by
    rw [h1, Real.sqrt_div (add_nonneg (mul_self_nonneg x) (mul_self_nonneg y)) (x * x),
      Real.sqrt_mul_self_eq_abs]
  have hs : Real.sqrt (x * x + y * y) ≠ 0 := by
    rw [Ne, Real.sqrt_eq_zero (add_nonneg (mul_self_nonneg x) (mul_self_nonneg y))]
    intro h0
    have : x * x = 0 :=
      le_antisymm (by nlinarith [mul_self_nonneg y]) (mul_self_nonneg x)
    exact hx (mul_self_eq_zero.mp this)
  rw [Real.sin_arctan, hsq, div_div_eq_mul_div]
  exact div_mul_cancel₀ _ hs

/-- Cosine of the atan2 angle times the distance recovers the x
coordinate, away from the origin. -/
lemma cos_atan2_mul (x y : ℝ) (hne : distance x y ≠ 0) :
    Real.cos (atan2 y x) * distance x y = x := by
  have hxy : ¬(x = 0 ∧ y = 0) :=
    fun hc => hne ((distance_eq_zero_iff x y).mpr hc)
  unfold distance
  rcases lt_trichotomy x 0 with hx | hx | hx
  · have hxne : x ≠ 0 := ne_of_lt hx
    rcases le_or_lt 0 y with hy | hy
    · rw [atan2_of_neg_x_nonneg y x hx hy, Real.cos_add_pi, neg_mul,
        cos_arctan_mul_sqrt x y hxne, abs_of_neg hx, neg_neg]
    · rw [atan2_of_neg_x_neg y x hx hy, Real.cos_sub_pi, neg_mul,
        cos_arctan_mul_sqrt x y hxne, abs_of_neg hx, neg_neg]
  · subst hx
    have hyne : y ≠ 0 := fun h0 => hxy ⟨rfl, h0⟩
    rcases lt_trichotomy y 0 with hy | hy | hy
    · rw [atan2_of_zero_x_neg y hy, Real.cos_neg, Real.cos_pi_div_two,
        zero_mul]
    · exact absurd hy hyne
    · rw [atan2_of_zero_x_pos y hy, Real.cos_pi_div_two, zero_mul]
  · rw [atan2_of_pos_x y x hx, cos_arctan_mul_sqrt x y (ne_of_gt hx),
      abs_of_pos hx]

/-- Sine of the atan2 angle times the distance recovers the y
coordinate, away from the origin. -/
lemma sin_atan2_mul (x y : ℝ) (hne : distance x y ≠ 0) :
    Real.sin (atan2 y x) * distance x y = y := by
  have hxy : ¬(x = 0 ∧ y = 0) :=
    fun hc => hne ((distance_eq_zero_iff x y).mpr hc)
  unfold distance
  rcases lt_trichotomy x 0 with hx | hx | hx
  · have hxne : x ≠ 0 := ne_of_lt hx
    rcases le_or_lt 0 y with hy | hy
    · rw [atan2_of_neg_x_nonneg y x hx hy, Real.sin_add_pi, neg_mul,
        sin_arctan_mul_sqrt x y hxne, abs_of_neg hx]
      field_simp
    · rw [atan2_of_neg_x_neg y x hx hy, Real.sin_sub_pi, neg_mul,
        sin_arctan_mul_sqrt x y hxne, abs_of_neg hx]
      field_simp
  · subst hx
    have hyne : y ≠ 0 := fun h0 => hxy ⟨rfl, h0⟩
    rcases lt_trichotomy y 0 with hy | hy | hy
    · rw [atan2_of_zero_x_neg y hy, Real.sin_neg, Real.sin_pi_div_two,
        show (0:ℝ) * 0 + y * y = y * y by ring,
        Real.sqrt_mul_self_eq_abs, abs_of_neg hy]
      ring
    · exact absurd hy hyne
    · rw [atan2_of_zero_x_pos y hy, Real.sin_pi_div_two, one_mul,
        show (0:ℝ) * 0 + y * y = y * y by ring,
        Real.sqrt_mul_self_eq_abs, abs_of_pos hy]
  · rw [atan2_of_pos_x y x hx, sin_arctan_mul_sqrt x y (ne_of_gt hx),
      abs_of_pos hx]
    field_simp

/-- Closed-chain identity for the arm triangle: with the base angle
arccos u against the chord and the interior elbow angle arccos v, the
arm laid along the chord reaches the point (d, 0); the second segment
points along direction (arccos u + arccos v + π). -/
lemma elbow_identity (d l1 l2 u v : ℝ) (hd : 0 < d) (hl1 : 0 < l1)
    (hl2 : 0 < l2)
    (hu : u = (d * d + l1 * l1 - l2 * l2) / (2 * d * l1))
    (hv : v = (l1 * l1 + l2 * l2 - d * d) / (2 * l1 * l2))
    (hu1 : -1 ≤ u) (hu2 : u ≤ 1) (hv1 : -1 ≤ v) (hv2 : v ≤ 1) :
    l1 * Real.cos (Real.arccos u) -
      l2 * Real.cos (Real.arccos u + Real.arccos v) = d ∧
    l1 * Real.sin (Real.arccos u) -
      l2 * Real.sin (Real.arccos u + Real.arccos v) = 0 := by
  have hdne : (2:ℝ) * d * l1 ≠ 0 := by positivity
  have hlne : (2:ℝ) * l1 * l2 ≠ 0 := by positivity
  have hsu2 : Real.sqrt (1 - u ^ 2) ^ 2 = 1 - u ^ 2 :=
    Real.sq_sqrt (by nlinarith)
  have hsv2 : Real.sqrt (1 - v ^ 2) ^ 2 = 1 - v ^ 2 :=
    Real.sq_sqrt (by nlinarith)
  have hsunn : 0 ≤ Real.sqrt (1 - u ^ 2) := Real.sqrt_nonneg _
  have hsvnn : 0 ≤ Real.sqrt (1 - v ^ 2) := Real.sqrt_nonneg _
  have hlv : l1 - l2 * v = d * u := by
    rw [hu, hv]
    field_simp
    ring
  have key : l2 * Real.sqrt (1 - v ^ 2) = d * Real.sqrt (1 - u ^ 2) := by
    have hsq : (l2 * Real.sqrt (1 - v ^ 2)) ^ 2 =
        (d * Real.sqrt (1 - u ^ 2)) ^ 2 := by
      rw [mul_pow, mul_pow, hsu2, hsv2, hu, hv]
      field_simp
      ring
    have hz : (l2 * Real.sqrt (1 - v ^ 2) - d * Real.sqrt (1 - u ^ 2)) *
        (l2 * Real.sqrt (1 - v ^ 2) + d * Real.sqrt (1 - u ^ 2)) = 0 := by
      linear_combination hsq
    rcases mul_eq_zero.mp hz with hz1 | hz2
    · linarith [sub_eq_zero.mp hz1]
    · have ha : 0 ≤ l2 * Real.sqrt (1 - v ^ 2) := by positivity
      have hb : 0 ≤ d * Real.sqrt (1 - u ^ 2) := by positivity
      linarith
  have hcu : Real.cos (Real.arccos u) = u := Real.cos_arccos hu1 hu2
  have hcv : Real.cos (Real.arccos v) = v := Real.cos_arccos hv1 hv2
  have hsu : Real.sin (Real.arccos u) = Real.sqrt (1 - u ^ 2) :=
    Real.sin_arccos u
  have hsv : Real.sin (Real.arccos v) = Real.sqrt (1 - v ^ 2) :=
    Real.sin_arccos v
  rw [Real.cos_add, Real.sin_add, hcu, hcv, hsu, hsv]
  constructor
  · linear_combination u * hlv + Real.sqrt (1 - u ^ 2) * key + d * hsu2
  · linear_combination Real.sqrt (1 - u ^ 2) * hlv - u * key

/-- Square root of 300 expressed through the square root of 3. -/
lemma sqrt_three_hundred : Real.sqrt 300 = 10 * Real.sqrt 3 := by
  rw [show (300:ℝ) = 10 ^ 2 * 3 by norm_num,
    Real.sqrt_mul (by positivity) 3, Real.sqrt_sq (by norm_num)]

/-- Counterexample to C3's sign convention: at the reachable interior
target (√300, 0) with len1 = len2 = 10 the solver returns A1 = π/6 and
A2 = 2π/3, but the claimed reconstruction l1·cos(A1) + l2·cos(A1 − A2)
misses the target x by 5·√3 > 1, and the y reconstruction misses by
5 > 1, far outside any small tolerance. -/
theorem C3_counterexample :
    angles (Real.sqrt 300) 0 = (some (π / 6), some (2 * π / 3)) ∧
    1 < |10 * Real.cos (π / 6) + 10 * Real.cos (π / 6 - 2 * π / 3) -
      Real.sqrt 300| ∧
    1 < |10 * Real.sin (π / 6) + 10 * Real.sin (π / 6 - 2 * π / 3) - 0| := by
  have h300 : Real.sqrt 300 * Real.sqrt 300 = 300 :=
    Real.mul_self_sqrt (by norm_num)
  have hpos : 0 < Real.sqrt 300 := Real.sqrt_pos.mpr (by norm_num)
  have s3 : Real.sqrt 3 * Real.sqrt 3 = 3 :=
    Real.mul_self_sqrt (by norm_num)
  have s3nn : 0 ≤ Real.sqrt 3 := Real.sqrt_nonneg 3
  have hd : distance (Real.sqrt 300) 0 = Real.sqrt 300 := by
    unfold distance
    rw [mul_zero, add_zero, h300]
  have hA1 : atan2 0 (Real.sqrt 300) = 0 := by
    rw [atan2_of_pos_x 0 (Real.sqrt 300) hpos, zero_div, Real.arctan_zero]
  have harg1 : (Real.sqrt 300 * Real.sqrt 300 + 10 * 10 - 10 * 10) /
      (2 * Real.sqrt 300 * 10) = Real.sqrt 3 / 2 := by
    rw [sqrt_three_hundred, div_eq_iff (by positivity)]
    ring
  have harg2 : (10 * 10 + 10 * 10 - Real.sqrt 300 * Real.sqrt 300) /
      (2 * 10 * 10) = -(1 / 2) := by
    rw [h300]
    norm_num
  have hac1 : Real.arccos (Real.sqrt 3 / 2) = π / 6 := by
    rw [← Real.cos_pi_div_six, Real.arccos_cos (by linarith [Real.pi_pos])
      (by linarith [Real.pi_pos])]
  have hac2 : Real.arccos (-(1 / 2)) = 2 * π / 3 := by
    rw [Real.arccos_neg, show ((1:ℝ) / 2) = Real.cos (π / 3) from
      (Real.cos_pi_div_three).symm, Real.arccos_cos
      (by linarith [Real.pi_pos]) (by linarith [Real.pi_pos])]
    ring
  refine ⟨?_, ?_, ?_⟩
  · show solve (Real.sqrt 300) 0 10 10 = (some (π / 6), some (2 * π / 3))
    unfold solve
    rw [hd, lawOfCosines_eq (Real.sqrt 300) 10 10 (π / 6) (by positivity)
        (by rw [harg1]; linarith) (by rw [harg1]; nlinarith [s3, s3nn])
        (by rw [harg1, hac1]),
      lawOfCosines_eq 10 10 (Real.sqrt 300) (2 * π / 3) (by positivity)
        (by rw [harg2]; norm_num) (by rw [harg2]; norm_num)
        (by rw [harg2, hac2])]
    simp [hA1]
  · have hc : Real.cos (π / 6 - 2 * π / 3) = 0 := by
      rw [show π / 6 - 2 * π / 3 = -(π / 2) by ring, Real.cos_neg,
        Real.cos_pi_div_two]
    rw [hc, Real.cos_pi_div_six, sqrt_three_hundred,
      show 10 * (Real.sqrt 3 / 2) + 10 * 0 - 10 * Real.sqrt 3 =
        -(5 * Real.sqrt 3) by ring, abs_neg, abs_of_nonneg (by positivity)]
    nlinarith [s3, s3nn]
  · have hs : Real.sin (π / 6 - 2 * π / 3) = -1 := by
      rw [show π / 6 - 2 * π / 3 = -(π / 2) by ring, Real.sin_neg,
        Real.sin_pi_div_two]
    rw [hs, Real.sin_pi_div_six,
      show 10 * (1 / 2 : ℝ) + 10 * (-1) - 0 = -5 by norm_num, abs_neg,
      abs_of_nonneg (by norm_num)]
    norm_num

/-- C3 as amended: for every reachable target away from the origin, the
returned angles satisfy the forward-kinematics round trip with the
solver's own sign convention, in which the returned elbow angle A2 is
the interior triangle angle, so the second segment points along
direction A1 + A2 + π: x = len1·cos(A1) − len2·cos(A1 + A2) and
y = len1·sin(A1) − len2·sin(A1 + A2), exactly. -/
theorem C3_amended_forward_kinematics (x y l1 l2 : ℝ) (hl1 : 0 < l1)
    (hl2 : 0 < l2) (hd : distance x y ≠ 0)
    (hlow : |l1 - l2| ≤ distance x y) (hhigh : distance x y ≤ l1 + l2) :
    ∃ a1 a2 : ℝ, solve x y l1 l2 = (some a1, some a2) ∧
      l1 * Real.cos a1 - l2 * Real.cos (a1 + a2) = x ∧
      l1 * Real.sin a1 - l2 * Real.sin (a1 + a2) = y := by
  have hd0 : 0 ≤ distance x y := Real.sqrt_nonneg _
  have hdpos : 0 < distance x y := lt_of_le_of_ne hd0 (Ne.symm hd)
  obtain ⟨hu1, hu2⟩ :=
    (arg1_mem_iff (distance x y) l1 l2 hdpos hl1 hl2).mpr ⟨hlow, hhigh⟩
  obtain ⟨hv1, hv2⟩ :=
    (arg2_mem_iff (distance x y) l1 l2 hdpos hl1 hl2).mpr ⟨hlow, hhigh⟩
  set u := (distance x y * distance x y + l1 * l1 - l2 * l2) /
    (2 * distance x y * l1) with hu
  set v := (l1 * l1 + l2 * l2 - distance x y * distance x y) /
    (2 * l1 * l2) with hv
  obtain ⟨hEd, hE0⟩ := elbow_identity (distance x y) l1 l2 u v hdpos hl1
    hl2 hu hv hu1 hu2 hv1 hv2
  have hct : Real.cos (atan2 y x) * distance x y = x := cos_atan2_mul x y hd
  have hst : Real.sin (atan2 y x) * distance x y = y := sin_atan2_mul x y hd
  refine ⟨atan2 y x + Real.arccos u, Real.arccos v, ?_, ?_, ?_⟩
  · unfold solve
    rw [lawOfCosines_eq (distance x y) l1 l2 (Real.arccos u)
        (by positivity) (by rw [← hu]; exact hu1) (by rw [← hu]; exact hu2)
        (by rw [← hu]),
      lawOfCosines_eq l1 l2 (distance x y) (Real.arccos v)
        (by positivity) (by rw [← hv]; exact hv1) (by rw [← hv]; exact hv2)
        (by rw [← hv])]
    rfl
  · rw [add_assoc (atan2 y x) (Real.arccos u) (Real.arccos v),
      Real.cos_add (atan2 y x) (Real.arccos u),
      Real.cos_add (atan2 y x) (Real.arccos u + Real.arccos v)]
    linear_combination Real.cos (atan2 y x) * hEd -
      Real.sin (atan2 y x) * hE0 + hct
  · rw [add_assoc (atan2 y x) (Real.arccos u) (Real.arccos v),
      Real.sin_add (atan2 y x) (Real.arccos u),
      Real.sin_add (atan2 y x) (Real.arccos u + Real.arccos v)]
    linear_combination Real.sin (atan2 y x) * hEd +
      Real.cos (atan2 y x) * hE0 + hst

/-- Witness for the amended C3 at the concrete reachable target (10, 0)
with both lengths 10. -/
theorem C3_witness :
    ∃ a1 a2 : ℝ, solve 10 0 10 10 = (some a1, some a2) ∧
      10 * Real.cos a1 - 10 * Real.cos (a1 + a2) = 10 ∧
      10 * Real.sin a1 - 10 * Real.sin (a1 + a2) = 0 := by
  have h : distance 10 0 = 10 := by
    unfold distance
    rw [mul_zero, add_zero, Real.sqrt_mul_self (by norm_num : (0:ℝ) ≤ 10)]
  exact C3_amended_forward_kinematics 10 0 10 10 (by norm_num)
    (by norm_num) (by rw [h]; norm_num) (by rw [h]; norm_num)
    (by rw [h]; norm_num)

/-- C7: for a target not at the origin, reflecting the target through
the origin leaves the distance and the elbow angle A2 unchanged and
shifts the base angle A1 by exactly π (upward or downward). -/
theorem C7_origin_reflection_symmetry (x y l1 l2 : ℝ)
    (h : ¬(x = 0 ∧ y = 0)) :
    distance (-x) (-y) = distance x y ∧
    (solve (-x) (-y) l1 l2).2 = (solve x y l1 l2).2 ∧
    ((solve (-x) (-y) l1 l2).1 =
        (solve x y l1 l2).1.map (fun a => a + π) ∨
      (solve (-x) (-y) l1 l2).1 =
        (solve x y l1 l2).1.map (fun a => a - π)) := by
  have hdist : distance (-x) (-y) = distance x y := by
    unfold distance
    rw [show -x * -x + -y * -y = x * x + y * y by ring]
  refine ⟨hdist, ?_, ?_⟩
  · simp only [solve]
    rw [hdist]
  · rcases atan2_neg_neg x y h with h1 | h1
    · left
      simp only [solve]
      rw [hdist, Option.map_map]
      have hfg : (fun D2 => atan2 (-y) (-x) + D2) =
          ((fun a => a + π) ∘ fun D2 => atan2 y x + D2) := by
        funext D2
        simp only [Function.comp_apply]
        rw [h1]
        ring
      rw [hfg]
    · right
      simp only [solve]
      rw [hdist, Option.map_map]
      have hfg : (fun D2 => atan2 (-y) (-x) + D2) =
          ((fun a => a - π) ∘ fun D2 => atan2 y x + D2) := by
        funext D2
        simp only [Function.comp_apply]
        rw [h1]
        ring
      rw [hfg]

/-- Witness for C7 at the concrete target (1, 0), lengths 10 and 10. -/
theorem C7_witness :
    distance (-1) (-0) = distance 1 0 ∧
    (solve (-1) (-0) 10 10).2 = (solve 1 0 10 10).2 ∧
    ((solve (-1) (-0) 10 10).1 =
        (solve 1 0 10 10).1.map (fun a => a + π) ∨
      (solve (-1) (-0) 10 10).1 =
        (solve 1 0 10 10).1.map (fun a => a - π)) :=
  C7_origin_reflection_symmetry 1 0 10 10 (by norm_num)

/-- C10: the returned elbow angle A2 depends on the target only through
its squared distance from the origin. -/
theorem C10_A2_depends_only_on_squared_distance (x y x2 y2 l1 l2 : ℝ)
    (h : x * x + y * y = x2 * x2 + y2 * y2) :
    (solve x y l1 l2).2 = (solve x2 y2 l1 l2).2 := by
  simp only [solve]
  rw [distance, distance, h]

/-- Witness for C10 at the concrete targets (3, 4) and (5, 0), which
share the squared distance 25. -/
theorem C10_witness : (solve 3 4 10 10).2 = (solve 5 0 10 10).2 :=
  C10_A2_depends_only_on_squared_distance 3 4 5 0 10 10 (by norm_num)

end

end RoboticArm
